import Mathlib

/-!
Verification of the cloudsync synchronization engine against its design
specification.  The Go sources are shallowly embedded: times are integer
nanoseconds since the Unix epoch (UTC), file contents are byte lists, and
fallible I/O primitives are parameterized by explicit success oracles so that
every control path of the source functions is represented.
-/

namespace CloudSync

/-- The per-file synchronization decision (spec §3, SyncDecision). -/
inductive SyncDecision where
  | Upload
  | Download
  | NoOp
deriving DecidableEq, Repr

/-- The decision obtained by exchanging the roles of local and remote. -/
def SyncDecision.opposite : SyncDecision → SyncDecision
  | .Upload => .Download
  | .Download => .Upload
  | .NoOp => .NoOp

/-- Timestamp comparison of `Syncer.SyncFile` (sync package, lines 370-387) and
`checkCloudAndSync` (main.go lines 176-199): with `diff = remoteTime - localTime`,
`diff > tol` downloads, `diff < -tol` uploads, otherwise nothing is done. -/
def syncDecision (tol localTime remoteTime : Int) : SyncDecision :=
  if remoteTime - localTime > tol then .Download
  else if remoteTime - localTime < -tol then .Upload
  else .NoOp

/-- Go `strings.HasSuffix`, modelled on character lists. -/
def hasSuffix (s suffix : String) : Bool :=
  List.isSuffixOf suffix.toList s.toList

/-- Go `filepath.Base` for forward-slash separated paths: empty path gives ".",
trailing separators are dropped, an all-separator path gives "/", and otherwise
the segment after the last separator is returned. -/
def basename (p : String) : String :=
  if p = "" then "."
  else
    let stripped := p.toList.reverse.dropWhile (fun c => c = '/')
    if stripped = [] then "/"
    else String.mk (stripped.takeWhile (fun c => !(c = '/'))).reverse

/-- `shouldSyncFile` (main.go lines 89-92 and the watcher/sync packages): the
basename must end in ".sav" and must not be the excluded settings file. -/
def shouldSyncFile (filePath : String) : Bool :=
  hasSuffix (basename filePath) ".sav" &&
    !(basename filePath == "EnhancedInputUserSettings.sav")

/-- Go `unicode`-free model of ASCII lowercasing as used on process names. -/
def charToLower (c : Char) : Char :=
  if 65 ≤ c.toNat && c.toNat ≤ 90 then Char.ofNat (c.toNat + 32) else c

/-- Lowercased character list of a string (models `strings.ToLower` on the
ASCII process names this program compares). -/
def lowerList (s : String) : List Char := s.toList.map charToLower

/-- Whether `needle` occurs at the head of `hay`. -/
def leadsWith : List Char → List Char → Bool
  | [], _ => true
  | _ :: _, [] => false
  | c :: cs, d :: ds => c = d && leadsWith cs ds

/-- Go `strings.Contains`, modelled on character lists. -/
def containsSub : List Char → List Char → Bool
  | [], needle => leadsWith needle []
  | c :: rest, needle => leadsWith needle (c :: rest) || containsSub rest needle

/-- `isProcessRunning` (main.go lines 71-87): case-insensitive substring match
of the configured name against every running executable name; a process-list
enumeration failure (`none`) is treated as not running (fail-open). -/
def isProcessRunningMain (name : String) (procs : Option (List String)) : Bool :=
  match procs with
  | none => false
  | some ps => ps.any (fun exe => containsSub (lowerList exe) (lowerList name))

/-- The periodic-timer branch of the main select loop (main.go lines 61-64):
a full reconciliation pass runs only when a process name is configured and the
process is not reported running. -/
def tickRunsFullSync (processName : String) (procs : Option (List String)) : Bool :=
  !(processName == "") && !(isProcessRunningMain processName procs)

/-- The pause guard of the event branch (main.go lines 44-47). -/
def eventSyncPaused (processName : String) (procs : Option (List String)) : Bool :=
  !(processName == "") && isProcessRunningMain processName procs

/-- The event branch of the main select loop: a per-file sync runs only when the
pause guard is off and the event was accepted by the filter and debounce. -/
def eventRunsSync (processName : String) (procs : Option (List String))
    (accepted : Bool) : Bool :=
  if eventSyncPaused processName procs then false else accepted

/-- fsnotify operation bit for Create. -/
def opCreate : Nat := 1

/-- fsnotify operation bit for Write. -/
def opWrite : Nat := 2

/-- A raw change notification: path and operation bitmask. -/
structure WatcherEvent where
  name : String
  op : Nat
deriving DecidableEq, Repr

/-- The debounce step of `FileWatcher.ShouldProcess` (watcher package, lines
76-83): a recorded acceptance within the cooldown rejects and leaves the state
untouched; otherwise the event is accepted and the acceptance time recorded. -/
def debounceStep (cooldown : Int) (state : String → Option Int) (path : String)
    (now : Int) : Bool × (String → Option Int) :=
  match state path with
  | some last =>
    if now - last ≤ cooldown then (false, state)
    else (true, fun p => if p = path then some now else state p)
  | none => (true, fun p => if p = path then some now else state p)

/-- `FileWatcher.ShouldProcess` (watcher package, lines 59-84).  The directory
containment test `filepath.Dir(event.Name) == filepath.Clean(watchPath)` is an
external path primitive and is passed in as the predicate `inRoot`. -/
def ShouldProcess (cooldown : Int) (inRoot : String → Bool)
    (state : String → Option Int) (e : WatcherEvent) (now : Int) :
    Bool × (String → Option Int) :=
  if e.op &&& (opWrite ||| opCreate) = 0 then (false, state)
  else if !(shouldSyncFile e.name) then (false, state)
  else if !(inRoot e.name) then (false, state)
  else debounceStep cooldown state e.name now

/-- A local file's observable state: content bytes and modification time (ns). -/
structure LocalFile where
  content : List Nat
  modTime : Int
deriving DecidableEq, Repr

/-- main.go `backupAndReplace` (lines 206-228).  Oracles model the success of
`createBackupTimeFolder`, the backup `copyFile` and the replacing `copyFile`;
the result is the list of backup snapshots created by the call and the local
file afterwards (a fresh local write carries the write time `now`; `Chtimes`
happens in the caller). -/
def backupAndReplaceMain (folderOk backupCopyOk replaceCopyOk : Bool)
    (localFile : Option LocalFile) (newContent : List Nat) (now : Int) :
    List (List Nat) × Option LocalFile :=
  match localFile with
  | some lf =>
    if !folderOk then ([], some lf)
    else if !backupCopyOk then ([], some lf)
    else if !replaceCopyOk then ([lf.content], some lf)
    else ([lf.content], some ⟨newContent, now⟩)
  | none =>
    if !replaceCopyOk then ([], none)
    else ([], some ⟨newContent, now⟩)

/-- main.go `backupAndUpload` (lines 235-251).  There is no `fileExists` guard:
the backup folder is created, the file is copied into it, and — crucially — a
failure of that copy is only logged before `uploadToCloud` runs anyway.  The
result is the list of snapshots created and whether the upload was performed. -/
def backupAndUploadMain (folderOk backupCopyOk : Bool)
    (localFile : Option LocalFile) : List (List Nat) × Bool :=
  if !folderOk then ([], false)
  else
    match localFile with
    | some lf => if backupCopyOk then ([lf.content], true) else ([], true)
    | none => ([], true)

/-- `Syncer.backupAndUpload` (sync package, lines 454-469): when the local file
exists, a failed `createBackup` (directory creation or copy) aborts before any
upload; result is (snapshots, upload performed, overall success). -/
def backupAndUploadSyncer (backupDirOk backupCopyOk uploadOk : Bool)
    (localFile : Option LocalFile) : List (List Nat) × Bool × Bool :=
  match localFile with
  | some lf =>
    if !(backupDirOk && backupCopyOk) then ([], false, false)
    else ([lf.content], true, uploadOk)
  | none => ([], true, uploadOk)

/-- `Syncer.downloadAndReplace` (sync package, lines 471-500): backup when a
local file exists (abort on backup failure), download the remote bytes to a
temporary path, replace the local file only after a successful transfer, delete
the temporary file, then restore the remote modification time — a `Chtimes`
failure is only a logged warning.  Result: (snapshots, local file afterwards,
temporary file afterwards, success). -/
def downloadAndReplaceSyncer (backupDirOk backupCopyOk downloadOk replaceOk
    chtimesOk : Bool) (remoteContent : List Nat) (remoteModTime now : Int)
    (localFile : Option LocalFile) :
    List (List Nat) × Option LocalFile × Option (List Nat) × Bool :=
  let transfer := fun (bs : List (List Nat)) (lf : Option LocalFile) =>
    if !downloadOk then (bs, lf, none, false)
    else if !replaceOk then (bs, lf, none, false)
    else (bs, some (⟨remoteContent, if chtimesOk then remoteModTime else now⟩ :
      LocalFile), none, true)
  match localFile with
  | some lf =>
    if !(backupDirOk && backupCopyOk) then ([], some lf, none, false)
    else transfer [lf.content] (some lf)
  | none => transfer [] none

/-- The download arm of main.go (`syncFromCloud` lines 147-161 and
`checkCloudAndSync` lines 182-189): `FGetObject` downloads to a temporary path
(on failure the iteration is abandoned), then `backupAndReplace` runs, and then
`os.Chtimes(localPath, cloudModTime, cloudModTime)` runs unconditionally — even
when `backupAndReplace` failed internally and never replaced the content.
Returns the local file afterwards. -/
def syncFromCloudStep (downloadOk folderOk backupCopyOk replaceCopyOk
    chtimesOk : Bool) (remoteContent : List Nat) (cloudModTime now : Int)
    (localFile : Option LocalFile) : Option LocalFile :=
  if !downloadOk then localFile
  else
    match (backupAndReplaceMain folderOk backupCopyOk replaceCopyOk localFile
      remoteContent now).2 with
    | some lf => if chtimesOk then some ⟨lf.content, cloudModTime⟩ else some lf
    | none => none

/-- A storage transfer actually invoked during one `SyncFile` call. -/
inductive Transfer where
  | upload
  | download
deriving DecidableEq, Repr

/-- The decision level of `Syncer.SyncFile` (sync package, lines 361-387):
`storage.Stat` returning any error (`none` — the code inspects only `err !=
nil`, so a network failure is indistinguishable from not-found) leads straight
to upload; otherwise the timestamps are compared. -/
def syncFileDecision (tol localModTime : Int) (statRes : Option Int) : SyncDecision :=
  match statRes with
  | none => .Upload
  | some remoteTime => syncDecision tol localModTime remoteTime

/-- One `Syncer.SyncFile` invocation (sync package, lines 350-388) together
with its callees `backupAndUpload` and `downloadAndReplace`: the list of
storage transfers invoked and the overall success.  `statRes = none` models any
`storage.Stat` error; the backup gate aborts before any transfer; a failed
transfer is returned as an error with nothing further attempted. -/
def syncFileRun (tol localModTime : Int) (statRes : Option Int)
    (localExists backupOk uploadOk downloadOk replaceOk : Bool) :
    List Transfer × Bool :=
  match statRes with
  | none =>
    if localExists && !backupOk then ([], false)
    else ([.upload], uploadOk)
  | some remoteTime =>
    if remoteTime - localModTime > tol then
      if localExists && !backupOk then ([], false)
      else ([.download], downloadOk && replaceOk)
    else if remoteTime - localModTime < -tol then
      if localExists && !backupOk then ([], false)
      else ([.upload], uploadOk)
    else ([], true)

/-- main.go `uploadToCloud` (lines 265-299): after the bucket check/creation,
the `Modtime` metadata is taken from a fresh local stat, falling back to the
current wall-clock time `now` when the stat fails, and the upload proceeds
either way.  Returns the metadata timestamp attached to the performed upload,
or `none` when the function returns before uploading. -/
def uploadToCloudMain (bucketCheckOk bucketExists makeBucketOk : Bool)
    (statResult : Option Int) (now : Int) : Option Int :=
  if !bucketCheckOk then none
  else if !bucketExists && !makeBucketOk then none
  else
    match statResult with
    | some mt => some mt
    | none => some now

/-- The character for a decimal digit value. -/
def digitChar (d : Nat) : Char := Char.ofNat (48 + d)

/-- The value of a decimal digit character, if it is one. -/
def digitVal (c : Char) : Option Nat :=
  if 48 ≤ c.toNat && c.toNat ≤ 57 then some (c.toNat - 48) else none

/-- Accumulating base-10 parse of a digit run; fails at any non-digit. -/
def parseDigitsAcc : List Char → Nat → Option Nat
  | [], acc => some acc
  | c :: rest, acc =>
    match digitVal c with
    | some d => parseDigitsAcc rest (acc * 10 + d)
    | none => none

/-- Base-10 parse of a nonempty digit run. -/
def parseUnsigned : List Char → Option Nat
  | [] => none
  | c :: rest => parseDigitsAcc (c :: rest) 0

/-- The decimal digits of a natural number, most significant first. -/
def natDigits (n : Nat) : List Char :=
  if n < 10 then [digitChar n]
  else natDigits (n / 10) ++ [digitChar (n % 10)]
termination_by n
decreasing_by omega

/-- Go `fmt.Sprintf` with verb `%d` on an int64: an optional minus sign
followed by the decimal digits, no leading zeros. -/
def intToDecimalString (i : Int) : String :=
  if i < 0 then String.mk ('-' :: natDigits i.natAbs)
  else String.mk (natDigits i.natAbs)

/-- Go `strconv.ParseInt(s, 10, 64)`: optional sign, a nonempty all-digit run,
and an int64 range check (magnitude at most 9223372036854775808 when negative,
9223372036854775807 otherwise). -/
def parseInt64 (s : String) : Option Int :=
  match s.toList with
  | [] => none
  | c :: rest =>
    if c = '-' then
      match parseUnsigned rest with
      | some n => if n ≤ 9223372036854775808 then some (-(n : Int)) else none
      | none => none
    else if c = '+' then
      match parseUnsigned rest with
      | some n => if n ≤ 9223372036854775807 then some ((n : Int)) else none
      | none => none
    else
      match parseUnsigned (c :: rest) with
      | some n => if n ≤ 9223372036854775807 then some ((n : Int)) else none
      | none => none

/-- A remote object as the store presents it back: content bytes, the value of
the `Modtime` user-metadata key (`""` when absent, matching Go map lookup), and
the store's native last-modified timestamp. -/
structure RemoteObject where
  content : List Nat
  userMetaModtime : String
  lastModified : Int
deriving DecidableEq, Repr

/-- `S3Client.Upload` (storage package, lines 632-655): the uploaded object
carries the local bytes and the local modification time as integer nanoseconds
in the `Modtime` metadata key; the native last-modified is whatever the store
assigns. -/
def uploadObject (localContent : List Nat) (localModTime nativeLastModified : Int) :
    RemoteObject :=
  ⟨localContent, intToDecimalString localModTime, nativeLastModified⟩

/-- `extractModTime` (storage package, lines 714-727): use the `Modtime`
metadata when present and parseable, else the native last-modified. -/
def extractModTime (obj : RemoteObject) : Int :=
  if obj.userMetaModtime = "" then obj.lastModified
  else
    match parseInt64 obj.userMetaModtime with
    | some ts => ts
    | none => obj.lastModified

/-- `S3Client.Download` transfers the object's bytes verbatim. -/
def downloadContent (obj : RemoteObject) : List Nat := obj.content

/-- C1: when the local file exists and the remote stat succeeds, the decision is
Download when `remote - local > tol`, Upload when `remote - local < -tol`, NoOp
whenever `|remote - local| ≤ tol` (boundaries included), and the rule is
antisymmetric: swapping the local and remote times yields the opposite decision. -/
theorem syncDecision_tolerance_antisymmetric (tol L R : Int) (htol : 0 ≤ tol) :
    (R - L > tol → syncDecision tol L R = SyncDecision.Download) ∧
    (R - L < -tol → syncDecision tol L R = SyncDecision.Upload) ∧
    (-tol ≤ R - L → R - L ≤ tol → syncDecision tol L R = SyncDecision.NoOp) ∧
    syncDecision tol R L = (syncDecision tol L R).opposite := by
  refine ⟨?_, ?_, ?_, ?_⟩
  · intro h
    simp only [syncDecision, if_pos h]
  · intro h
    have hn : ¬(R - L > tol) := by omega
    simp only [syncDecision, if_neg hn, if_pos h]
  · intro h1 h2
    have hn1 : ¬(R - L > tol) := by omega
    have hn2 : ¬(R - L < -tol) := by omega
    simp only [syncDecision, if_neg hn1, if_neg hn2]
  · simp only [syncDecision]
    split_ifs with h1 h2 h3 h4 h5 <;>
      first
        | rfl
        | omega

/-- Witness: with the source's 500 ms tolerance, a remote copy 600 ms newer is
downloaded, and the mirrored situation uploads. -/
theorem syncDecision_tolerance_antisymmetric_witness :
    syncDecision 500000000 0 600000000 = SyncDecision.Download ∧
    syncDecision 500000000 600000000 0 = SyncDecision.Upload := by
  refine ⟨(syncDecision_tolerance_antisymmetric 500000000 0 600000000 (by decide)).1
    (by decide), ?_⟩
  have h := (syncDecision_tolerance_antisymmetric 500000000 600000000 0 (by decide)).2.1
  exact h (by decide)

/-- C9: `shouldSyncFile` holds exactly when the path's basename ends with the
".sav" suffix and differs from "EnhancedInputUserSettings.sav"; being a Lean
function of the path alone, it is deterministic and effect-free. -/
theorem shouldSyncFile_iff (p : String) :
    shouldSyncFile p = true ↔
      (hasSuffix (basename p) ".sav" = true ∧
        basename p ≠ "EnhancedInputUserSettings.sav") := by
  simp [shouldSyncFile]

/-- C6: with a monitored process configured, the periodic tick runs a full
reconciliation pass exactly when the process is reported not running, and while
it is reported running neither the periodic pass nor any event-triggered sync
executes. -/
theorem tick_and_event_process_guard (name : String) (procs : Option (List String))
    (accepted : Bool) (h : name ≠ "") :
    (tickRunsFullSync name procs = !(isProcessRunningMain name procs)) ∧
    (isProcessRunningMain name procs = true →
      tickRunsFullSync name procs = false ∧
        eventRunsSync name procs accepted = false) := by
  have hb : (name == "") = false := by
    simpa using h
  constructor
  · simp [tickRunsFullSync, hb]
  · intro hr
    refine ⟨?_, ?_⟩
    · simp [tickRunsFullSync, hb, hr]
    · simp [eventRunsSync, eventSyncPaused, hb, hr]

/-- Witness: with the name "game.exe" configured and a running process whose
executable name is "Game.exe-host", the tick pass is skipped and an accepted
change event performs no sync. -/
theorem tick_and_event_process_guard_witness :
    tickRunsFullSync "game.exe" (some ["Game.exe-host"]) = false ∧
    eventRunsSync "game.exe" (some ["Game.exe-host"]) true = false := by
  have h := (tick_and_event_process_guard "game.exe" (some ["Game.exe-host"]) true
    (by decide)).2 (by decide)
  exact ⟨h.1, h.2⟩

/-- C7: for a candidate write/create event on a path with no recorded
acceptance, the event is accepted and the time recorded; a second event on the
same path within the cooldown (elapsed ≤ cooldown) is rejected with the
debounce state unchanged, while one after the cooldown is accepted and the
state records the new acceptance time. -/
theorem shouldProcess_debounce (cooldown t0 t1 : Int) (inRoot : String → Bool)
    (st : String → Option Int) (e : WatcherEvent)
    (hop : e.op &&& (opWrite ||| opCreate) ≠ 0)
    (hc : shouldSyncFile e.name = true) (hr : inRoot e.name = true)
    (h0 : st e.name = none) :
    (ShouldProcess cooldown inRoot st e t0).1 = true ∧
    (ShouldProcess cooldown inRoot st e t0).2 e.name = some t0 ∧
    (t1 - t0 ≤ cooldown →
      ShouldProcess cooldown inRoot (ShouldProcess cooldown inRoot st e t0).2 e t1 =
        (false, (ShouldProcess cooldown inRoot st e t0).2)) ∧
    (t1 - t0 > cooldown →
      (ShouldProcess cooldown inRoot (ShouldProcess cooldown inRoot st e t0).2 e t1).1
          = true ∧
        (ShouldProcess cooldown inRoot (ShouldProcess cooldown inRoot st e t0).2 e t1).2
          e.name = some t1) := by
  have hstep : ShouldProcess cooldown inRoot st e t0 =
      (true, fun p => if p = e.name then some t0 else st p) := by
    simp [ShouldProcess, hop, hc, hr, debounceStep, h0]
  refine ⟨by rw [hstep], by rw [hstep]; simp, ?_, ?_⟩
  · intro hle
    rw [hstep]
    simp only [ShouldProcess, hop, hc, hr, debounceStep]
    simp [hle]
  · intro hgt
    rw [hstep]
    simp only [ShouldProcess, hop, hc, hr, debounceStep]
    have : ¬(t1 - t0 ≤ cooldown) := by omega
    simp [this]

/-- Witness: cooldown 1 s (in ns), first event at t=0 accepted, a second event
on the same path 0.5 s later rejected. -/
theorem shouldProcess_debounce_witness :
    (ShouldProcess 1000000000 (fun _ => true) (fun _ => none)
        ⟨"/w/game.sav", 2⟩ 0).1 = true ∧
    ShouldProcess 1000000000 (fun _ => true)
        (ShouldProcess 1000000000 (fun _ => true) (fun _ => none)
          ⟨"/w/game.sav", 2⟩ 0).2 ⟨"/w/game.sav", 2⟩ 500000000 =
      (false, (ShouldProcess 1000000000 (fun _ => true) (fun _ => none)
          ⟨"/w/game.sav", 2⟩ 0).2) := by
  have h := shouldProcess_debounce 1000000000 0 500000000 (fun _ => true)
    (fun _ => none) ⟨"/w/game.sav", 2⟩ (by decide) (by decide) (by decide) rfl
  exact ⟨h.1, h.2.2.1 (by decide)⟩

/-- C2 fails as stated: in main.go's `backupAndUpload`, when the backup folder
is created but the backup file copy fails, the upload is still performed even
though no recoverable copy of the prior local bytes was made. -/
theorem backupAndUploadMain_upload_without_backup :
    (backupAndUploadMain true false (some ⟨[7], 0⟩)).1 = [] ∧
    (backupAndUploadMain true false (some ⟨[7], 0⟩)).2 = true := by
  exact ⟨rfl, rfl⟩

/-- C2 amended: downloads never replace an existing local file's content
without a snapshot of its prior bytes, and the Syncer's upload path aborts on
any backup failure; but in main.go's upload path only a backup-folder creation
failure aborts — a failed backup file copy is merely logged and the upload
proceeds without a snapshot. -/
theorem backup_before_destructive_action (fo bc rp bd up dl ct : Bool)
    (lf0 : LocalFile) (nc rc : List Nat) (rmt now : Int) :
    (((backupAndReplaceMain fo bc rp (some lf0) nc now).2 ≠ some lf0 →
        (backupAndReplaceMain fo bc rp (some lf0) nc now).1 = [lf0.content]) ∧
      ((downloadAndReplaceSyncer bd bc dl rp ct rc rmt now (some lf0)).2.1 ≠ some lf0 →
        (downloadAndReplaceSyncer bd bc dl rp ct rc rmt now (some lf0)).1 =
          [lf0.content])) ∧
    ((backupAndUploadSyncer bd bc up (some lf0)).2.1 = true →
      (backupAndUploadSyncer bd bc up (some lf0)).1 = [lf0.content]) ∧
    (fo = false → backupAndUploadMain fo bc (some lf0) = ([], false)) ∧
    (backupAndUploadMain true false (some lf0)).2 = true := by
  refine ⟨⟨?_, ?_⟩, ?_, ?_, ?_⟩
  · cases fo <;> cases bc <;> cases rp <;>
      simp [backupAndReplaceMain]
  · cases bd <;> cases bc <;> cases dl <;> cases rp <;> cases ct <;>
      simp [downloadAndReplaceSyncer]
  · cases bd <;> cases bc <;> cases up <;>
      simp [backupAndUploadSyncer]
  · intro hfo
    subst hfo
    simp [backupAndUploadMain]
  · simp [backupAndUploadMain]

/-- Witness: a download replacing an existing local file leaves exactly one
snapshot holding the prior bytes. -/
theorem backup_before_destructive_action_witness :
    (downloadAndReplaceSyncer true true true true true [9] 5 6 (some ⟨[7], 0⟩)).1 =
      [[7]] := by
  have h := (backup_before_destructive_action true true true true true true true
    ⟨[7], 0⟩ [8] [9] 5 6).1.2
  exact h (by decide)

/-- C3 fails as stated for main.go's download arm: with a local file of content
`[7]` and modification time 3, a successful temp download followed by a failed
backup (so the replacement never happens) still sets the local modification
time to the remote time 50 — the file is left with its previous content but
not its previous timestamp. -/
theorem syncFromCloud_failedBackup_setsRemoteTime :
    syncFromCloudStep true false true true true [9] 50 60 (some ⟨[7], 3⟩) =
      some ⟨[7], 50⟩ ∧
    some (⟨[7], 50⟩ : LocalFile) ≠ some (⟨[7], 3⟩ : LocalFile) := by
  exact ⟨rfl, by decide⟩

/-- C3 amended: every download transfers remote bytes to a temporary path
first, and local content is never replaced unless that transfer succeeded.  In
`Syncer.downloadAndReplace`, every failing path (backup, transfer, or
replacement) leaves the local file with its previous content and timestamp; on
success the local content equals the remote bytes, the temporary file is
deleted and the modification time is set to the remote-recorded time when
`Chtimes` succeeds, and a `Chtimes` failure alone still yields success.  In
main.go's download arm, a failed temp download likewise leaves the local file
untouched, but after a successful download the modification time is set to the
remote time even when the backup-and-replace step failed and the old content
was kept. -/
theorem downloadAndReplace_temp_first (bd bc dl rp ct : Bool) (rc : List Nat)
    (rmt now : Int) (lf : Option LocalFile) :
    (syncFromCloudStep false bd bc rp ct rc rmt now lf = lf) ∧
    (∀ lf0 : LocalFile, lf = some lf0 → bd = false ∨ bc = false →
      syncFromCloudStep true bd bc rp ct rc rmt now lf =
        some ⟨lf0.content, if ct then rmt else lf0.modTime⟩) ∧
    ((downloadAndReplaceSyncer bd bc dl rp ct rc rmt now lf).2.2.2 = false →
      (downloadAndReplaceSyncer bd bc dl rp ct rc rmt now lf).2.1 = lf) ∧
    (dl = false →
      (downloadAndReplaceSyncer bd bc dl rp ct rc rmt now lf).2.2.2 = false ∧
        (downloadAndReplaceSyncer bd bc dl rp ct rc rmt now lf).2.1 = lf) ∧
    ((downloadAndReplaceSyncer bd bc dl rp ct rc rmt now lf).2.2.2 = true →
      (downloadAndReplaceSyncer bd bc dl rp ct rc rmt now lf).2.1 =
          some ⟨rc, if ct then rmt else now⟩ ∧
        (downloadAndReplaceSyncer bd bc dl rp ct rc rmt now lf).2.2.1 = none) ∧
    (bd = true → bc = true → dl = true → rp = true →
      (downloadAndReplaceSyncer bd bc dl rp ct rc rmt now lf).2.2.2 = true) := by
  cases bd <;> cases bc <;> cases dl <;> cases rp <;> cases ct <;> cases lf <;>
    simp [downloadAndReplaceSyncer, syncFromCloudStep, backupAndReplaceMain]

/-- Witness: a download whose transfer to the temporary path fails leaves the
pre-existing local file untouched and reports failure. -/
theorem downloadAndReplace_temp_first_witness :
    (downloadAndReplaceSyncer true true false true true [9] 5 6
        (some ⟨[7], 3⟩)).2.2.2 = false ∧
    (downloadAndReplaceSyncer true true false true true [9] 5 6
        (some ⟨[7], 3⟩)).2.1 = some ⟨[7], 3⟩ := by
  exact (downloadAndReplace_temp_first true true false true true [9] 5 6
    (some ⟨[7], 3⟩)).2.2.2.1 rfl

/-- C4 fails as stated: a failed remote stat (the code cannot tell a network
failure from not-found) does cause an upload within the same `SyncFile`
invocation — with the source's 500 ms tolerance, a local file at time 0 whose
remote stat errors is uploaded. -/
theorem syncFile_statError_uploads :
    (syncFileRun 500000000 0 none true true true true true).1 = [Transfer.upload] ∧
    (syncFileRun 500000000 0 none true true true true true).1 ≠ [] := by
  exact ⟨rfl, by decide⟩

/-- C4 amended: a failed upload, download or list operation is abandoned with
no alternative or repeated transfer (at most one transfer is invoked, and which
transfers are invoked does not depend on their outcomes); a download is only
ever invoked after a successful remote stat showing the remote copy newer
beyond tolerance; but a failed remote stat is treated as remote-missing and
triggers a backup-then-upload rather than being abandoned. -/
theorem syncFile_error_abandonment (tol lt : Int) (statRes : Option Int)
    (le bo uo dl rp : Bool) :
    (syncFileRun tol lt statRes le bo uo dl rp).1.length ≤ 1 ∧
    (syncFileRun tol lt statRes le bo uo dl rp).1 =
      (syncFileRun tol lt statRes le bo true true true).1 ∧
    (Transfer.download ∈ (syncFileRun tol lt statRes le bo uo dl rp).1 →
      ∃ rt, statRes = some rt ∧ rt - lt > tol) ∧
    (statRes = none →
      (syncFileRun tol lt statRes le bo uo dl rp).1 = [] ∨
        (syncFileRun tol lt statRes le bo uo dl rp).1 = [Transfer.upload]) := by
  match statRes with
  | none =>
    refine ⟨?_, ?_, ?_, ?_⟩ <;>
      simp only [syncFileRun] <;>
      cases le <;> cases bo <;> simp
  | some rt =>
    by_cases h1 : rt - lt > tol
    · refine ⟨?_, ?_, ?_, ?_⟩ <;>
        simp only [syncFileRun, if_pos h1] <;>
        cases le <;> cases bo <;> simp_all
    · by_cases h2 : rt - lt < -tol
      · refine ⟨?_, ?_, ?_, ?_⟩ <;>
          simp only [syncFileRun, if_neg h1, if_pos h2] <;>
          cases le <;> cases bo <;> simp_all
      · refine ⟨?_, ?_, ?_, ?_⟩ <;>
          simp only [syncFileRun, if_neg h1, if_neg h2] <;> simp

/-- Witness: a sync where the remote copy is newer invokes exactly the download
transfer, whether or not that download then succeeds. -/
theorem syncFile_error_abandonment_witness :
    (syncFileRun 500000000 0 (some 600000000) true true true false true).1 =
      (syncFileRun 500000000 0 (some 600000000) true true true true true).1 := by
  exact (syncFile_error_abandonment 500000000 0 (some 600000000)
    true true true false true).2.1

/-- C5: a remote counterpart reported missing by `Stat` resolves to Upload
regardless of the local timestamp, and the executed action is backup-then-
upload (the single invoked transfer is the upload once the backup gate
passes). -/
theorem remoteMissing_always_uploads (tol lt : Int) (uo dl rp : Bool) :
    syncFileDecision tol lt none = SyncDecision.Upload ∧
    (syncFileRun tol lt none true true uo dl rp).1 = [Transfer.upload] ∧
    (syncFileRun tol lt none false true uo dl rp).1 = [Transfer.upload] := by
  exact ⟨rfl, rfl, rfl⟩

/-- C10: when the local stat fails at upload time, main.go still uploads and
stamps the `Modtime` metadata with the current wall-clock time, so for any
intended gap `d` there is a run in which the remote record's timestamp differs
from the file's true modification time by exactly `d`. -/
theorem uploadToCloud_statFailure_usesNow (be : Bool) (trueModTime : Int) :
    (∀ now : Int, uploadToCloudMain true be true none now = some now) ∧
    (∀ d : Int, uploadToCloudMain true be true none (trueModTime + d) =
      some (trueModTime + d)) := by
  constructor
  · intro now
    cases be <;> simp [uploadToCloudMain]
  · intro d
    cases be <;> simp [uploadToCloudMain]

theorem digitVal_digitChar (d : Nat) (h : d < 10) : digitVal (digitChar d) = some d := by
  interval_cases d <;> decide

theorem digitChar_ne_signs (d : Nat) (h : d < 10) :
    digitChar d ≠ '-' ∧ digitChar d ≠ '+' := by
  interval_cases d <;> exact ⟨by decide, by decide⟩

theorem parseDigitsAcc_append (xs ys : List Char) (a : Nat) :
    parseDigitsAcc (xs ++ ys) a =
      (parseDigitsAcc xs a).bind (fun b => parseDigitsAcc ys b) := by
  induction xs generalizing a with
  | nil => rfl
  | cons c rest ih =>
    simp only [List.cons_append, parseDigitsAcc]
    cases digitVal c with
    | none => rfl
    | some d => exact ih _

theorem natDigits_ne_nil (n : Nat) : natDigits n ≠ [] := by
  rw [natDigits]
  split <;> simp

theorem natDigits_head (n : Nat) :
    ∃ d rest, natDigits n = digitChar d :: rest ∧ d < 10 := by
  induction n using natDigits.induct with
  | case1 n h =>
    rw [natDigits, if_pos h]
    exact ⟨n, [], rfl, h⟩
  | case2 n h ih =>
    rw [natDigits, if_neg h]
    obtain ⟨d, rest, heq, hd⟩ := ih
    exact ⟨d, rest ++ [digitChar (n % 10)], by rw [heq]; rfl, hd⟩

theorem parseDigitsAcc_natDigits (n : Nat) :
    ∀ a, ∃ k, parseDigitsAcc (natDigits n) a = some (a * 10 ^ k + n) := by
  induction n using natDigits.induct with
  | case1 n h =>
    intro a
    refine ⟨1, ?_⟩
    rw [natDigits, if_pos h]
    simp only [parseDigitsAcc, digitVal_digitChar n h]
    norm_num
  | case2 n h ih =>
    intro a
    obtain ⟨k, hk⟩ := ih a
    refine ⟨k + 1, ?_⟩
    rw [natDigits, if_neg h, parseDigitsAcc_append, hk]
    simp only [Option.bind_some, parseDigitsAcc,
      digitVal_digitChar (n % 10) (by omega)]
    refine congrArg some ?_
    rw [pow_succ, ← Nat.mul_assoc]
    generalize a * 10 ^ k = b
    omega

theorem parseUnsigned_natDigits (n : Nat) : parseUnsigned (natDigits n) = some n := by
  obtain ⟨d, rest, heq, hd⟩ := natDigits_head n
  obtain ⟨k, hk⟩ := parseDigitsAcc_natDigits n 0
  rw [heq]
  show parseDigitsAcc (digitChar d :: rest) 0 = some n
  rw [← heq, hk]
  simp

theorem parseInt64_intToDecimalString (i : Int)
    (h1 : -9223372036854775808 ≤ i) (h2 : i ≤ 9223372036854775807) :
    parseInt64 (intToDecimalString i) = some i := by
  by_cases hneg : i < 0
  · have hs : (intToDecimalString i).toList = '-' :: natDigits i.natAbs := by
      simp [intToDecimalString, if_pos hneg, String.toList]
    simp only [parseInt64, hs, if_true]
    simp only [parseUnsigned_natDigits]
    have hrange : i.natAbs ≤ 9223372036854775808 := by omega
    rw [if_pos hrange]
    refine congrArg some ?_
    omega
  · have hs : (intToDecimalString i).toList = natDigits i.natAbs := by
      simp [intToDecimalString, if_neg hneg, String.toList]
    obtain ⟨d, rest, heq, hd⟩ := natDigits_head i.natAbs
    obtain ⟨hm, hp⟩ := digitChar_ne_signs d hd
    simp only [parseInt64, hs, heq]
    rw [if_neg hm, if_neg hp]
    have huns : parseUnsigned (digitChar d :: rest) = some i.natAbs := by
      rw [← heq]
      exact parseUnsigned_natDigits i.natAbs
    simp only [huns]
    have hrange : i.natAbs ≤ 9223372036854775807 := by omega
    rw [if_pos hrange]
    refine congrArg some ?_
    omega

theorem intToDecimalString_ne_empty (i : Int) : intToDecimalString i ≠ "" := by
  have h := natDigits_ne_nil i.natAbs
  simp only [intToDecimalString]
  split
  · intro hc
    have hd : '-' :: natDigits i.natAbs = [] := congrArg String.data hc
    exact List.noConfusion hd
  · intro hc
    have hd : natDigits i.natAbs = [] := congrArg String.data hc
    exact h hd

/-- C8: the upload-then-download round trip is exact — the object carries the
local bytes verbatim and the `Modtime` metadata as decimal nanoseconds, and
modification-time recovery parses that metadata back to the identical
nanosecond value, falling back to the store's native last-modified timestamp
exactly when the metadata is absent or unparseable. -/
theorem upload_download_roundtrip (content : List Nat) (mt native : Int)
    (h1 : -9223372036854775808 ≤ mt) (h2 : mt ≤ 9223372036854775807) :
    downloadContent (uploadObject content mt native) = content ∧
    extractModTime (uploadObject content mt native) = mt ∧
    (∀ o : RemoteObject, ∀ ts : Int, parseInt64 o.userMetaModtime = some ts →
      extractModTime o = ts) ∧
    (∀ o : RemoteObject, parseInt64 o.userMetaModtime = none →
      extractModTime o = o.lastModified) := by
  refine ⟨rfl, ?_, ?_, ?_⟩
  · show extractModTime ⟨content, intToDecimalString mt, native⟩ = mt
    simp only [extractModTime]
    rw [if_neg (intToDecimalString_ne_empty mt),
      parseInt64_intToDecimalString mt h1 h2]
  · intro o ts hp
    simp only [extractModTime]
    have hne : o.userMetaModtime ≠ "" := by
      intro hc
      rw [hc] at hp
      exact Option.noConfusion hp
    rw [if_neg hne, hp]
  · intro o hp
    simp only [extractModTime]
    split
    · rfl
    · rw [hp]

/-- Witness: a concrete nanosecond timestamp and content survive the round
trip unchanged. -/
theorem upload_download_roundtrip_witness :
    downloadContent (uploadObject [1, 2, 3] 1745112000123456789 42) = [1, 2, 3] ∧
    extractModTime (uploadObject [1, 2, 3] 1745112000123456789 42) =
      1745112000123456789 := by
  have h := upload_download_roundtrip [1, 2, 3] 1745112000123456789 42
    (by decide) (by decide)
  exact ⟨h.1, h.2.1⟩

end CloudSync

